import Mathlib

/-!
# A shallow embedding of pgbalancer's dispatcher core

This file models the Go package `pgbalancer` (files `cluster.go`, `node.go`,
`query.go`): a client-side balancer that distributes queries over a set of
database nodes, each guarded by a token-bucket rate gate, with a background
selection loop handing eligible nodes to callers through a one-slot channel.

Modelling conventions:
* time is `ℚ` (seconds); machine floats of the Go rate limiter become exact
  rationals, which is faithful for the integral rates the package configures;
* the opaque `*sql.DB` handle is reduced to the observations the core makes
  of it: whether `Open`/`Ping` fail (an oracle `DBEnv`), whether `Close`
  fails (an oracle `String → Option String` keyed by node name), and a
  `dbClosed` flag on the node;
* `sync.Map` becomes an association list in insertion order (`Range` iterates
  in that order); `chan *Node` of capacity 1 becomes an `Option Node` slot;
* the rate gate is `golang.org/x/time/rate.Limiter`, embedded from that
  library's `reserveN`/`advance`: tokens grow linearly at rate `limit`,
  capped at `burst`; a failed check has no side effect; a zero `limit` is
  special-cased to consume from `burst` and never refill; a freshly built
  limiter behaves as if it starts with a full bucket (its zero `last` time
  makes the first advance saturate the tokens at `burst`).
-/

namespace PgBalancer

/-- The state of one `rate.Limiter` (golang.org/x/time/rate). `limit` is the
refill rate in tokens per second, `burst` the bucket capacity, `tokens` the
tokens available at time `last`. The Go constructor `rate.NewLimiter(l, b)`
yields a limiter whose first `advance` saturates the bucket, so it is
embedded as starting full at time 0. -/
structure Limiter where
  limit : ℚ
  burst : ℚ
  tokens : ℚ
  last : ℚ
deriving DecidableEq

/-- `rate.NewLimiter(limit, burst)`: a full bucket. -/
def Limiter.new (limit burst : ℚ) : Limiter :=
  ⟨limit, burst, burst, 0⟩

/-- The bucket after advancing from `l.last` to time `t`
(`Limiter.advance` in the Go library): linear growth capped at `burst`;
a `t` before `last` contributes nothing. -/
def Limiter.advTokens (l : Limiter) (t : ℚ) : ℚ :=
  min l.burst (l.tokens + (t - min t l.last) * l.limit)

/-- `Limiter.Allow()` called at time `t`, that is `AllowN(t, 1)` =
`reserveN(t, 1, 0).ok` in the Go library, together with the limiter state it
leaves behind. A zero limit consumes straight from `burst` and never
refills; otherwise the advanced bucket must hold a full token (and `burst`
must admit one), which is then consumed. A denied call changes nothing. -/
def Limiter.allowAt (l : Limiter) (t : ℚ) : Bool × Limiter :=
  if l.limit = 0 then
    if 1 ≤ l.burst then (true, { l with burst := l.burst - 1 })
    else (false, l)
  else if 1 ≤ l.burst ∧ 1 ≤ l.advTokens t then
    (true, { l with tokens := l.advTokens t - 1, last := t })
  else (false, l)

/-- A run of the gate: query it at each time of `ts` in order, collecting the
admitted times. -/
def allowRun (l : Limiter) : List ℚ → List ℚ × Limiter
  | [] => ([], l)
  | t :: ts =>
      let s := l.allowAt t
      let r := allowRun s.2 ts
      (if s.1 then t :: r.1 else r.1, r.2)

/-- A node (`node.go`): its name, whether its database handle has been
closed, and its rate gate. The `*sql.DB` pool settings are part of the
opaque handle and are not observed by any property below. -/
structure Node where
  name : String
  dbClosed : Bool
  limiter : Limiter
deriving DecidableEq

/-- `(*Node).setLimit` (`node.go`): build a fresh `rate.NewLimiter(rate.Limit(limitRPS), 1)`
and install it, replacing whatever limiter state the node had. -/
def Node.setLimit (n : Node) (limitRPS : ℤ) : Node :=
  { n with limiter := Limiter.new (limitRPS : ℚ) 1 }

/-- What `sql.Open` / `db.Ping` do for a given DSN: `none` is success,
`some msg` the error text. -/
structure DBEnv where
  openErr : String → Option String
  pingErr : String → Option String

/-- The environment in which both calls succeed on every DSN. -/
def noDBErrors : DBEnv :=
  ⟨fun _ => none, fun _ => none⟩

/-- The errors `newNode` returns: `fmt.Errorf("open db: %w", err)` and
`fmt.Errorf("ping db: %w", err)`. -/
inductive NodeErr
  | openDB (msg : String)
  | pingDB (msg : String)
deriving DecidableEq

/-- `newNode` (`node.go`): open the database, ping it, and on success build
the node with its gate set by `setLimit(limitRPS)`. The pool-size arguments
only configure the opaque handle. -/
def newNode (name _dsn : String) (limitRPS _maxIdleConn _maxOpenConn : ℤ)
    (env : DBEnv) : Except NodeErr Node :=
  match env.openErr _dsn with
  | some e => .error (.openDB e)
  | none =>
      match env.pingErr _dsn with
      | some e => .error (.pingDB e)
      | none => .ok (Node.setLimit ⟨name, false, Limiter.new 0 1⟩ limitRPS)

/-- The errors the cluster surface returns: the wrapped
`ErrDuplicateNodeName`, the wrapped `newNode` failure
(`"failed to add a node: %w"`), and a per-node close failure
(`"node %s: %w"`). -/
inductive ClusterErr
  | duplicateNodeName (name : String)
  | addNodeFailed (inner : NodeErr)
  | nodeCloseFailed (name : String) (msg : String)
deriving DecidableEq

/-- The cluster (`cluster.go`), minus its logger and mutex: the registry
(`sync.Map` as an association list in `Range` order), the defaults applied
to new nodes, the separately maintained counter `nodeLen`, and the one-slot
channel `idleNode`. -/
structure Cluster where
  nodes : List (String × Node)
  limitRPS : ℤ
  maxIdleConn : ℤ
  maxOpenConn : ℤ
  nodeLen : ℤ
  idleNode : Option Node
deriving DecidableEq

/-- `sync.Map.Load`: the first entry bound to the key. -/
def mapFind : List (String × Node) → String → Option Node
  | [], _ => none
  | (k, v) :: rest, key => if k = key then some v else mapFind rest key

/-- `sync.Map.Store`: replace the existing binding, else append. -/
def mapStore : List (String × Node) → String → Node → List (String × Node)
  | [], key, v => [(key, v)]
  | (k, w) :: rest, key, v =>
      if k = key then (key, v) :: rest else (k, w) :: mapStore rest key v

/-- `sync.Map.Delete`: drop the binding of the key. -/
def mapDelete : List (String × Node) → String → List (String × Node)
  | [], _ => []
  | (k, w) :: rest, key => if k = key then rest else (k, w) :: mapDelete rest key

/-- `NewCluster` (`cluster.go`): empty registry, the given default rate,
zero pool defaults, counter 0, empty handoff channel. The
`go nodeSelector(c)` it spawns is modelled by `selectorPass`/`selectorRun`
below. -/
def Cluster.new (limitRPS : ℤ) : Cluster :=
  ⟨[], limitRPS, 0, 0, 0, none⟩

/-- `(*Cluster).nodeExists`. -/
def Cluster.nodeExists (c : Cluster) (name : String) : Bool :=
  (mapFind c.nodes name).isSome

/-- `(*Cluster).Len`. -/
def Cluster.len (c : Cluster) : ℤ :=
  c.nodeLen

/-- `(*Cluster).AddNode`: refuse a duplicate name, build the node (which can
fail on open/ping), then increment the counter and store. -/
def Cluster.addNode (c : Cluster) (name dsn : String) (env : DBEnv) :
    Cluster × Option ClusterErr :=
  if c.nodeExists name then (c, some (.duplicateNodeName name))
  else
    match newNode name dsn c.limitRPS c.maxIdleConn c.maxOpenConn env with
    | .error e => (c, some (.addNodeFailed e))
    | .ok node =>
        ({ c with nodeLen := c.nodeLen + 1, nodes := mapStore c.nodes name node }, none)

/-- `(*Cluster).RemoveNode`: if the name exists, decrement the counter and
delete it; otherwise do nothing. -/
def Cluster.removeNode (c : Cluster) (name : String) : Cluster :=
  if c.nodeExists name then
    { c with nodeLen := c.nodeLen - 1, nodes := mapDelete c.nodes name }
  else c

/-- `(*Cluster).SetLimitRPS`: record the new default and call `setLimit` on
every registered node. -/
def Cluster.setLimitRPS (c : Cluster) (limitRPS : ℤ) : Cluster :=
  { c with
    limitRPS := limitRPS
    nodes := c.nodes.map fun p => (p.1, p.2.setLimit limitRPS) }

/-- The effect of `node.db.Close()` on the node as observed through the
registry (the handle is shared, the map entry itself is untouched). -/
def closeNode (n : Node) : Node :=
  { n with dbClosed := true }

/-- `(*Cluster).Close`: range over the registry closing each node's handle;
each failure overwrites `returnError`, so the error returned is the most
recent per-node failure (wrapped `"node %s: %w"`). Nothing else in the
cluster is touched — in particular no shutdown signal exists. `env` gives
each node's `db.Close()` outcome by name. -/
def Cluster.close (c : Cluster) (env : String → Option String) :
    Cluster × Option ClusterErr :=
  ({ c with nodes := c.nodes.map fun p => (p.1, closeNode p.2) },
   c.nodes.foldl
     (fun acc p =>
       match env p.1 with
       | some msg => some (.nodeCloseFailed p.1 msg)
       | none => acc)
     none)

/-- What a call of `(*Cluster).Node` — the blocking receive `<-c.idleNode` —
does, as a function of the current channel contents: deliver the buffered
node, or block. The Go signature `func (c *Cluster) Node() *Node` has no
error result, so this type has no error alternative either. -/
inductive AcquireResult
  | delivered (n : Node) (c : Cluster)
  | blocked
deriving DecidableEq

/-- `(*Cluster).Node` (`cluster.go`): a bare channel receive. -/
def Cluster.Node (c : Cluster) : AcquireResult :=
  match c.idleNode with
  | some n => .delivered n { c with idleNode := none }
  | none => .blocked

/-- The outcome of one `c.nodes.Range` pass of `nodeSelector`, all gate
queries taken at one instant `t`: the registry with the limiter states the
pass left, the channel slot, the names offered into the channel in order,
and — when a send found the slot full — the name the loop is blocked
offering. -/
structure PassOut where
  nodes : List (String × Node)
  slot : Option Node
  offered : List String
  blocked : Option String
deriving DecidableEq

/-- The body of `nodeSelector`'s `Range` callback, entry by entry: query the
node's gate; when admitted, send the node into the slot (blocking if the
slot is full, which ends the pass in a blocked send); the gate's state
update is visible through the registry since the limiter is shared. -/
def scanNodes (t : ℚ) : Option Node → List (String × Node) → PassOut
  | s, [] => ⟨[], s, [], none⟩
  | s, (k, n) :: rest =>
      let a := n.limiter.allowAt t
      let n' := { n with limiter := a.2 }
      if a.1 then
        match s with
        | none =>
            let out := scanNodes t (some n') rest
            ⟨(k, n') :: out.nodes, out.slot, k :: out.offered, out.blocked⟩
        | some _ => ⟨(k, n') :: rest, s, [], some k⟩
      else
        let out := scanNodes t s rest
        ⟨(k, n') :: out.nodes, out.slot, out.offered, out.blocked⟩

/-- One full `Range` pass of `nodeSelector` over the cluster. -/
def selectorPass (c : Cluster) (t : ℚ) : Cluster × PassOut :=
  let out := scanNodes t c.idleNode c.nodes
  ({ c with nodes := out.nodes, idleNode := out.slot }, out)

/-- The observable events of the dispatcher loop. `wait` would be a sleep or
park between passes; `nodeSelector`'s body is exactly one `Range` inside
`for {}` with no sleep, so no run below ever emits it. -/
inductive SelEvent
  | scan
  | offer (name : String)
  | sendBlocked (name : String)
  | wait (seconds : ℚ)
deriving DecidableEq

/-- `nodeSelector`'s `for {}` loop, run for `fuel` passes (or until a send
blocks), all at time `t`: the loop re-enters `Range` immediately, so no time
passes and no `wait` event occurs between passes. -/
def selectorRun (t : ℚ) : ℕ → Cluster → Cluster × List SelEvent
  | 0, c => (c, [])
  | Nat.succ k, c =>
      let pr := selectorPass c t
      match pr.2.blocked with
      | some name =>
          (pr.1, SelEvent.scan :: (pr.2.offered.map SelEvent.offer ++ [SelEvent.sendBlocked name]))
      | none =>
          let next := selectorRun t k pr.1
          (next.1, SelEvent.scan :: (pr.2.offered.map SelEvent.offer ++ next.2))

/-- An administrative call against the cluster. -/
inductive AdminCall
  | add (name dsn : String)
  | remove (name : String)
deriving DecidableEq

/-- The name an administrative call checks with `nodeExists`. -/
def AdminCall.calledName : AdminCall → String
  | .add n _ => n
  | .remove n => n

/-- A serialized (whole-call-atomic) run of administrative calls. -/
def runAdmin (env : DBEnv) : Cluster → List AdminCall → Cluster
  | c, [] => c
  | c, AdminCall.add name dsn :: ops => runAdmin env (c.addNode name dsn env).1 ops
  | c, AdminCall.remove name :: ops => runAdmin env (c.removeNode name) ops

/-- Where an in-flight administrative call stands, split at the lock
boundaries of the Go code: before its `nodeExists` check (an `RLock`
read), after the check with the value it read, or finished. -/
inductive ThSt
  | pending
  | checked (found : Bool)
  | done (err : Option ClusterErr)
deriving DecidableEq

/-- One concurrent administrative caller. -/
structure AdminThread where
  call : AdminCall
  st : ThSt
deriving DecidableEq

/-- The interleaved small-step semantics of concurrent `AddNode` /
`RemoveNode` callers. Each constructor is one critical section of the Go
code: the `nodeExists` read, then — for an add that saw the name absent —
`newNode` followed by the locked `nodeLen++; Store` commit (merged into one
step here, which only removes interleavings), and for a remove that saw the
name present the locked `nodeLen--; Delete` commit. The check and the
commit are separate steps because the Go code releases the read lock
between them. -/
inductive AdminStep (env : DBEnv) :
    Cluster × List AdminThread → Cluster × List AdminThread → Prop
  | check (c : Cluster) (ts : List AdminThread) (i : ℕ) (call : AdminCall)
      (hi : ts[i]? = some ⟨call, .pending⟩) :
      AdminStep env (c, ts)
        (c, ts.set i ⟨call, .checked (c.nodeExists call.calledName)⟩)
  | addDup (c : Cluster) (ts : List AdminThread) (i : ℕ) (name dsn : String)
      (hi : ts[i]? = some ⟨.add name dsn, .checked true⟩) :
      AdminStep env (c, ts)
        (c, ts.set i ⟨.add name dsn, .done (some (.duplicateNodeName name))⟩)
  | addErr (c : Cluster) (ts : List AdminThread) (i : ℕ) (name dsn : String) (e : NodeErr)
      (hi : ts[i]? = some ⟨.add name dsn, .checked false⟩)
      (he : newNode name dsn c.limitRPS c.maxIdleConn c.maxOpenConn env = .error e) :
      AdminStep env (c, ts)
        (c, ts.set i ⟨.add name dsn, .done (some (.addNodeFailed e))⟩)
  | addOk (c : Cluster) (ts : List AdminThread) (i : ℕ) (name dsn : String) (node : Node)
      (hi : ts[i]? = some ⟨.add name dsn, .checked false⟩)
      (he : newNode name dsn c.limitRPS c.maxIdleConn c.maxOpenConn env = .ok node) :
      AdminStep env (c, ts)
        ({ c with nodeLen := c.nodeLen + 1, nodes := mapStore c.nodes name node },
         ts.set i ⟨.add name dsn, .done none⟩)
  | rmTrue (c : Cluster) (ts : List AdminThread) (i : ℕ) (name : String)
      (hi : ts[i]? = some ⟨.remove name, .checked true⟩) :
      AdminStep env (c, ts)
        ({ c with nodeLen := c.nodeLen - 1, nodes := mapDelete c.nodes name },
         ts.set i ⟨.remove name, .done none⟩)
  | rmFalse (c : Cluster) (ts : List AdminThread) (i : ℕ) (name : String)
      (hi : ts[i]? = some ⟨.remove name, .checked false⟩) :
      AdminStep env (c, ts) (c, ts.set i ⟨.remove name, .done none⟩)

/-! ## Gate lemmas -/

unseal Rat.add Rat.sub Rat.mul Rat.inv

/-- A denied `Allow` leaves the limiter untouched (`reserveN` only writes
back on `ok`). -/
theorem allowAt_false_eq {l : Limiter} {t : ℚ} (h : (l.allowAt t).1 = false) :
    (l.allowAt t).2 = l := by
  unfold Limiter.allowAt at h ⊢
  by_cases h0 : l.limit = 0
  · rw [if_pos h0] at h ⊢
    by_cases hb : 1 ≤ l.burst
    · rw [if_pos hb] at h; exact absurd h (by simp)
    · rw [if_neg hb]
  · rw [if_neg h0] at h ⊢
    by_cases hb : 1 ≤ l.burst ∧ 1 ≤ l.advTokens t
    · rw [if_pos hb] at h; exact absurd h (by simp)
    · rw [if_neg hb]

/-- The admitted branch of `Allow` for a nonzero limit. -/
theorem allowAt_admit {l : Limiter} {t : ℚ} (h0 : l.limit ≠ 0)
    (hok : 1 ≤ l.burst ∧ 1 ≤ l.advTokens t) :
    l.allowAt t = (true, { l with tokens := l.advTokens t - 1, last := t }) := by
  unfold Limiter.allowAt
  rw [if_neg h0, if_pos hok]

/-- The denied branch of `Allow` for a nonzero limit. -/
theorem allowAt_deny {l : Limiter} {t : ℚ} (h0 : l.limit ≠ 0)
    (hok : ¬(1 ≤ l.burst ∧ 1 ≤ l.advTokens t)) :
    l.allowAt t = (false, l) := by
  unfold Limiter.allowAt
  rw [if_neg h0, if_neg hok]

/-- C1. The spec says a configured rate of 0 is an "unlimited" sentinel:
every check succeeds through an explicit branch. The code has no such
branch: `setLimit(0)` builds `rate.NewLimiter(rate.Limit(0), 1)`, and a
zero-limit `x/time/rate` limiter admits at most its burst (one request)
ever — it never refills. Evaluating the embedded code: after `NewCluster(0)`
and `AddNode`, the node's gate admits the first check and denies every
later one, at arbitrarily late times. This contradicts the code's own
documentation on `NewCluster` and `SetLimitRPS` ("sets no limits to
requests"). -/
theorem claim1_zero_rate_gate_denies :
    (mapFind (((Cluster.new 0).addNode "a" "dsn" noDBErrors).1.nodes) "a"
        = some ⟨"a", false, Limiter.new 0 1⟩) ∧
    ((Limiter.new 0 1).allowAt 0).1 = true ∧
    (((Limiter.new 0 1).allowAt 0).2.allowAt 1000000).1 = false ∧
    ((((Limiter.new 0 1).allowAt 0).2.allowAt 1000000).2.allowAt 2000000).1 = false := by
  decide

/-- C2, counterexample. Build a one-node cluster, run `Close()` to
completion (it returns, with no error); a subsequent pass of the dispatcher
loop still scans the registry and still offers the node into the handoff
channel. So `Close()` does not stop the dispatcher loop: no shutdown signal
exists for `nodeSelector` to consume. -/
theorem claim2_counterexample :
    ((((Cluster.new 1).addNode "a" "d" noDBErrors).1.close (fun _ => none)).2 = none) ∧
    ((selectorPass (((Cluster.new 1).addNode "a" "d" noDBErrors).1.close (fun _ => none)).1 0).2.offered
      = ["a"]) := by
  decide

/-- C4, counterexample. `Close()` a (node-less) cluster; a call of
`Cluster.Node()` afterwards finds the handoff channel empty and blocks.
With an empty registry nothing will ever be offered, so the caller is
blocked forever; no `ShutdownInProgress` error is returned — the code
defines no such error and `Node()` has no error result at all. -/
theorem claim4_counterexample :
    Cluster.Node ((Cluster.new 1).close (fun _ => none)).1 = AcquireResult.blocked ∧
    ((Cluster.new 1).close (fun _ => none)).1.nodes = [] := by
  decide

/-- C4, amended. `Close()` leaves the acquire path exactly as it was: it
does not touch the handoff channel and installs no shutdown signal, so
`Node()` after `Close()` is the same bare channel receive as before —
it blocks precisely when the channel is empty, and never returns any
error. -/
theorem claim4_acquire_unaffected_by_close (c : Cluster) (env : String → Option String) :
    ((c.close env).1.idleNode = c.idleNode) ∧
    (Cluster.Node (c.close env).1 = AcquireResult.blocked ↔ c.idleNode = none) := by
  refine ⟨rfl, ?_⟩
  cases h : c.idleNode <;> simp [Cluster.Node, Cluster.close, h]

/-- C4, witness: the amended statement at a concrete cluster. -/
theorem claim4_witness :
    (((Cluster.new 2).close (fun _ => none)).1.idleNode = (Cluster.new 2).idleNode) ∧
    (Cluster.Node ((Cluster.new 2).close (fun _ => none)).1 = AcquireResult.blocked ↔
      (Cluster.new 2).idleNode = none) :=
  claim4_acquire_unaffected_by_close (Cluster.new 2) (fun _ => none)

/-- C5, counterexample. A node with rate 1 whose single token was just
consumed (so that a repeated check at the same instant is denied): calling
`setLimit(1)` — the same rate — and checking again at the same instant now
succeeds. `setLimit` replaced the limiter with a fresh full bucket, i.e. it
retroactively granted a token that had already been consumed, which the
claim rules out. -/
theorem claim5_counterexample :
    (((Limiter.new 1 1).allowAt 0).1 = true) ∧
    ((((Limiter.new 1 1).allowAt 0).2.allowAt 0).1 = false) ∧
    ((Node.setLimit ⟨"a", false, ((Limiter.new 1 1).allowAt 0).2⟩ 1).limiter.allowAt 0).1 = true := by
  decide

/-- C5, amended. `setLimit(r)` does not adjust the existing gate: it
installs a freshly constructed `rate.NewLimiter(rate.Limit(r), 1)`,
discarding the old token state. The new gate starts with a full bucket, so
for any positive rate the very next check — at any time, even the instant
of the reconfiguration — is admitted, regardless of whether the old token
had been consumed. -/
theorem claim5_setLimit_resets_gate (n : Node) (r : ℤ) (t : ℚ) (hr : 0 < r) :
    (n.setLimit r).limiter = Limiter.new (r : ℚ) 1 ∧
    ((n.setLimit r).limiter.allowAt t).1 = true := by
  refine ⟨rfl, ?_⟩
  have hne : ((r : ℚ)) ≠ 0 := by
    exact_mod_cast ne_of_gt hr
  have hr0 : (0 : ℚ) ≤ (r : ℚ) := by exact_mod_cast le_of_lt hr
  have hadv : 1 ≤ (Limiter.new (r : ℚ) 1).advTokens t := by
    unfold Limiter.advTokens Limiter.new
    have hge : (0 : ℚ) ≤ (t - min t 0) * (r : ℚ) := by
      have : min t 0 ≤ t := min_le_left _ _
      have : (0 : ℚ) ≤ t - min t 0 := by linarith
      positivity
    simp only [le_min_iff]
    constructor <;> dsimp only <;> linarith
  have := allowAt_admit (l := Limiter.new (r : ℚ) 1) (t := t) hne ⟨le_refl 1, hadv⟩
  show ((Limiter.new (r : ℚ) 1).allowAt t).1 = true
  rw [this]

/-- C5, witness: the amended statement at rate 2, time 5. -/
theorem claim5_witness :
    (0 : ℤ) < 2 ∧
    ((Node.setLimit ⟨"w", false, Limiter.new 1 1⟩ 2).limiter = Limiter.new ((2 : ℤ) : ℚ) 1 ∧
     ((Node.setLimit ⟨"w", false, Limiter.new 1 1⟩ 2).limiter.allowAt 5).1 = true) :=
  ⟨by decide, claim5_setLimit_resets_gate ⟨"w", false, Limiter.new 1 1⟩ 2 5 (by decide)⟩

/-! ## The dispatcher loop -/

/-- A `Range` pass over nodes whose gates all deny changes nothing: same
registry, same slot, no offers, no blocked send. -/
theorem scanNodes_all_deny (t : ℚ) :
    ∀ (m : List (String × Node)) (s : Option Node),
      (∀ p ∈ m, (p.2.limiter.allowAt t).1 = false) →
      scanNodes t s m = ⟨m, s, [], none⟩ := by
  intro m
  induction m with
  | nil => intro s _; rfl
  | cons p rest ih =>
      obtain ⟨k, n⟩ := p
      intro s h
      have hn : (n.limiter.allowAt t).1 = false := h (k, n) (List.mem_cons_self ..)
      have h2 : (n.limiter.allowAt t).2 = n.limiter := allowAt_false_eq hn
      have hrest : scanNodes t s rest = ⟨rest, s, [], none⟩ :=
        ih s fun p hp => h p (List.mem_cons_of_mem _ hp)
      simp [scanNodes, hn, h2, hrest]

/-- C9, counterexample. A freshly built one-node cluster at rate 1: the
first pass admits the node and offers it, a caller drains it; from the
resulting (reachable) state, with the node's token spent, running the loop
for three more iterations at the same instant produces three consecutive
`scan` events — no `offer`, no `wait`, no elapsed time, and an unchanged
cluster. The loop re-scans immediately instead of performing the bounded
yield or wait the claim describes. -/
theorem claim9_counterexample :
    Cluster.Node (selectorPass (((Cluster.new 1).addNode "a" "d" noDBErrors).1) 0).1
      = AcquireResult.delivered ⟨"a", false, ⟨1, 1, 0, 0⟩⟩
          ⟨[("a", ⟨"a", false, ⟨1, 1, 0, 0⟩⟩)], 1, 0, 0, 1, none⟩ ∧
    selectorRun 0 3 ⟨[("a", ⟨"a", false, ⟨1, 1, 0, 0⟩⟩)], 1, 0, 0, 1, none⟩
      = (⟨[("a", ⟨"a", false, ⟨1, 1, 0, 0⟩⟩)], 1, 0, 0, 1, none⟩,
         [SelEvent.scan, SelEvent.scan, SelEvent.scan]) := by
  decide

/-- C9, amended. When no node's gate admits, `nodeSelector` re-enters
`Range` immediately: iterating the loop any number of times produces only
back-to-back `scan` events — never a `wait` — at one and the same instant,
and leaves the cluster unchanged. The loop body is just `c.nodes.Range(...)`
inside `for {}`; there is no sleep, park or deadline computation. -/
theorem claim9_busy_rescan (c : Cluster) (t : ℚ) (k : ℕ)
    (h : ∀ p ∈ c.nodes, (p.2.limiter.allowAt t).1 = false) :
    selectorRun t k c = (c, List.replicate k SelEvent.scan) := by
  induction k with
  | zero => rfl
  | succ k ih =>
      have hp : scanNodes t c.idleNode c.nodes = ⟨c.nodes, c.idleNode, [], none⟩ :=
        scanNodes_all_deny t c.nodes c.idleNode h
      simp [selectorRun, selectorPass, hp, ih, List.replicate_succ]

/-- C9, witness: the amended statement at a concrete one-node cluster whose
token is spent. -/
theorem claim9_witness :
    (∀ p ∈ ([("a", (⟨"a", false, ⟨1, 1, 0, 0⟩⟩ : Node))] : List (String × Node)),
        ((p.2).limiter.allowAt 0).1 = false) ∧
    selectorRun 0 2 ⟨[("a", ⟨"a", false, ⟨1, 1, 0, 0⟩⟩)], 1, 0, 0, 1, none⟩
      = (⟨[("a", ⟨"a", false, ⟨1, 1, 0, 0⟩⟩)], 1, 0, 0, 1, none⟩,
         List.replicate 2 SelEvent.scan) :=
  ⟨by decide, claim9_busy_rescan ⟨[("a", ⟨"a", false, ⟨1, 1, 0, 0⟩⟩)], 1, 0, 0, 1, none⟩ 0 2
    (by decide)⟩

/-- Closing the database handles changes no admission decision: a `Range`
pass over the closed registry offers the same names and blocks the same way
as over the original, for any slot contents of equal occupancy. -/
theorem scanNodes_closeNode (t : ℚ) :
    ∀ (m : List (String × Node)) (s₁ s₂ : Option Node), s₁.isSome = s₂.isSome →
      ((scanNodes t s₁ (m.map fun p => (p.1, closeNode p.2))).offered
          = (scanNodes t s₂ m).offered) ∧
      ((scanNodes t s₁ (m.map fun p => (p.1, closeNode p.2))).blocked
          = (scanNodes t s₂ m).blocked) := by
  intro m
  induction m with
  | nil => intro s₁ s₂ _; exact ⟨rfl, rfl⟩
  | cons p rest ih =>
      obtain ⟨k, n⟩ := p
      intro s₁ s₂ hs
      by_cases ha : (n.limiter.allowAt t).1 = true
      · cases s₂ with
        | none =>
            have h1 : s₁ = none := by cases s₁ <;> simp_all
            subst h1
            have := ih (some { closeNode n with limiter := (n.limiter.allowAt t).2 })
              (some { n with limiter := (n.limiter.allowAt t).2 }) rfl
            simp_all [scanNodes, closeNode]
        | some v =>
            obtain ⟨w, hw⟩ : ∃ w, s₁ = some w := by cases s₁ <;> simp_all
            subst hw
            simp [scanNodes, closeNode, ha]
      · have := ih s₁ s₂ hs
        simp_all [scanNodes, closeNode]

/-- C2, amended. `Close()` closes every node's connection resource (each
registry entry's handle is closed; the error kept is the most recent
per-node failure) but does not stop the dispatcher loop: the cluster has no
shutdown signal, membership and the handoff channel are untouched, and a
subsequent `nodeSelector` pass scans the same registry, offering exactly
the nodes it would have offered before the close. -/
theorem claim2_close_closes_all_but_selector_continues
    (c : Cluster) (env : String → Option String) (t : ℚ) :
    ((c.close env).1.nodes = c.nodes.map fun p => (p.1, closeNode p.2)) ∧
    ((c.close env).1.nodes.map Prod.fst = c.nodes.map Prod.fst) ∧
    ((c.close env).1.idleNode = c.idleNode) ∧
    ((selectorPass (c.close env).1 t).2.offered = (selectorPass c t).2.offered) ∧
    ((selectorPass (c.close env).1 t).2.blocked = (selectorPass c t).2.blocked) := by
  have hscan := scanNodes_closeNode t c.nodes c.idleNode c.idleNode rfl
  refine ⟨rfl, ?_, rfl, hscan.1, hscan.2⟩
  rw [Cluster.close, List.map_map]
  rfl

/-- `Load` on the closed registry finds the closed version of exactly what
`Load` found before. -/
theorem mapFind_close (m : List (String × Node)) (key : String) :
    mapFind (m.map fun p => (p.1, closeNode p.2)) key
      = (mapFind m key).map closeNode := by
  induction m with
  | nil => rfl
  | cons p rest ih =>
      obtain ⟨k, n⟩ := p
      by_cases h : k = key <;> simp [mapFind, h, ih]

/-- C10. `Close()` does not modify cluster membership: `Len()` is
unchanged, the registry holds the same names in the same order, every name
registered before is registered after, every node keeps its rate-gate state
(so it stays exactly as visible to the dispatcher's scans as before), and
the handoff channel is untouched. -/
theorem claim10_close_preserves_membership (c : Cluster) (env : String → Option String) :
    ((c.close env).1.len = c.len) ∧
    ((c.close env).1.nodes.map Prod.fst = c.nodes.map Prod.fst) ∧
    (∀ name : String, (c.close env).1.nodeExists name = c.nodeExists name) ∧
    ((c.close env).1.nodes.map (fun p => p.2.limiter)
        = c.nodes.map fun p => p.2.limiter) ∧
    ((c.close env).1.idleNode = c.idleNode) := by
  refine ⟨rfl, ?_, ?_, ?_, rfl⟩
  · rw [Cluster.close, List.map_map]; rfl
  · intro name
    show (mapFind ((c.close env).1.nodes) name).isSome = (mapFind c.nodes name).isSome
    rw [Cluster.close]
    rw [mapFind_close]
    cases mapFind c.nodes name <;> rfl
  · rw [Cluster.close, List.map_map]; rfl

/-! ## Registry operations -/

/-- An environment in which `sql.Open` fails on every DSN. -/
def envBoom : DBEnv :=
  ⟨fun _ => some "boom", fun _ => none⟩

/-- C3. `AddNode` returns the duplicate-name error exactly when the name is
currently registered; when the name is free and `sql.Open` (or `db.Ping`)
fails, it returns that failure wrapped (`"failed to add a node:"` around
`"open db:"`/`"ping db:"`) and leaves the cluster untouched; more
generally, on every error the registry, the counter and the whole cluster
state are unchanged, so no node is registered. -/
theorem claim3_addNode_errors (c : Cluster) (name dsn : String) (env : DBEnv) :
    ((c.addNode name dsn env).2 = some (ClusterErr.duplicateNodeName name) ↔
        c.nodeExists name = true) ∧
    (∀ msg : String, c.nodeExists name = false → env.openErr dsn = some msg →
      c.addNode name dsn env = (c, some (ClusterErr.addNodeFailed (NodeErr.openDB msg)))) ∧
    (∀ msg : String, c.nodeExists name = false → env.openErr dsn = none →
      env.pingErr dsn = some msg →
      c.addNode name dsn env = (c, some (ClusterErr.addNodeFailed (NodeErr.pingDB msg)))) ∧
    (∀ e : ClusterErr, (c.addNode name dsn env).2 = some e →
      (c.addNode name dsn env).1 = c) := by
  by_cases h : c.nodeExists name
  · simp [Cluster.addNode, h]
  · rcases ho : env.openErr dsn with _ | msg
    · rcases hp : env.pingErr dsn with _ | msg
      · simp [Cluster.addNode, newNode, h, ho, hp]
      · simp [Cluster.addNode, newNode, h, ho, hp]
    · simp [Cluster.addNode, newNode, h, ho]

/-- C3, witness: on a fresh cluster (name free) with a failing `sql.Open`,
`AddNode` returns the wrapped open error and the cluster is unchanged. -/
theorem claim3_witness :
    ((Cluster.new 1).nodeExists "a" = false) ∧
    ((Cluster.new 1).addNode "a" "d" envBoom
      = (Cluster.new 1, some (ClusterErr.addNodeFailed (NodeErr.openDB "boom")))) :=
  ⟨by decide, (claim3_addNode_errors (Cluster.new 1) "a" "d" envBoom).2.1 "boom" (by decide) rfl⟩

/-- `Load` after `Store` finds the stored node. -/
theorem mapFind_mapStore_self (m : List (String × Node)) (key : String) (v : Node) :
    mapFind (mapStore m key v) key = some v := by
  induction m with
  | nil => simp [mapStore, mapFind]
  | cons p rest ih =>
      obtain ⟨k, n⟩ := p
      by_cases h : k = key <;> simp [mapStore, mapFind, h, ih]

/-- `AddNode` never touches the cluster-wide default rate. -/
theorem addNode_limitRPS (c : Cluster) (name dsn : String) (env : DBEnv) :
    (c.addNode name dsn env).1.limitRPS = c.limitRPS := by
  by_cases h : c.nodeExists name
  · simp [Cluster.addNode, h]
  · rcases ho : env.openErr dsn with _ | msg
    · rcases hp : env.pingErr dsn with _ | msg
      · simp [Cluster.addNode, newNode, h, ho, hp]
      · simp [Cluster.addNode, newNode, h, ho, hp]
    · simp [Cluster.addNode, newNode, h, ho]

/-- C8. After `SetLimitRPS(R2)`: the cluster default is `R2`; every node
already present carries the gate `rate.NewLimiter(R2, 1)`; a subsequent
`AddNode` still sees default `R2` (it does not change the default), and
when it succeeds the node it registers is created with gate
`rate.NewLimiter(R2, 1)`. -/
theorem claim8_setLimitRPS_propagates (c : Cluster) (R2 : ℤ) (name dsn : String) (env : DBEnv) :
    ((c.setLimitRPS R2).limitRPS = R2) ∧
    ((c.setLimitRPS R2).nodes.map (fun p => (p.1, p.2.limiter))
        = c.nodes.map fun p => (p.1, Limiter.new (R2 : ℚ) 1)) ∧
    (((c.setLimitRPS R2).addNode name dsn env).1.limitRPS = R2) ∧
    (((c.setLimitRPS R2).addNode name dsn env).2 = none →
      mapFind ((c.setLimitRPS R2).addNode name dsn env).1.nodes name
        = some ⟨name, false, Limiter.new (R2 : ℚ) 1⟩) := by
  refine ⟨rfl, ?_, ?_, ?_⟩
  · rw [Cluster.setLimitRPS, List.map_map]
    rfl
  · rw [addNode_limitRPS]
    rfl
  · intro hok
    by_cases h : (c.setLimitRPS R2).nodeExists name
    · simp [Cluster.addNode, h] at hok
    · rcases ho : env.openErr dsn with _ | msg
      · rcases hp : env.pingErr dsn with _ | msg
        · show mapFind ((c.setLimitRPS R2).addNode name dsn env).1.nodes name = _
          simp only [Cluster.addNode, newNode, h, ho, hp, Bool.false_eq_true, if_false]
          exact mapFind_mapStore_self ..
        · simp [Cluster.addNode, newNode, h, ho, hp] at hok
      · simp [Cluster.addNode, newNode, h, ho] at hok

/-- C8, witness: reconfigure a fresh cluster to 3 and add a node; the added
node's gate is `rate.NewLimiter(3, 1)`. -/
theorem claim8_witness :
    ((((Cluster.new 5).setLimitRPS 3).addNode "a" "d" noDBErrors).2 = none) ∧
    (mapFind ((((Cluster.new 5).setLimitRPS 3).addNode "a" "d" noDBErrors).1.nodes) "a"
      = some ⟨"a", false, Limiter.new ((3 : ℤ) : ℚ) 1⟩) :=
  ⟨by decide,
   (claim8_setLimitRPS_propagates (Cluster.new 5) 3 "a" "d" noDBErrors).2.2.2 (by decide)⟩

/-! ## The counter and the registry size -/

/-- Storing an absent key grows the registry by one entry. -/
theorem mapStore_length_of_absent (m : List (String × Node)) (key : String) (v : Node)
    (h : mapFind m key = none) : (mapStore m key v).length = m.length + 1 := by
  induction m with
  | nil => rfl
  | cons p rest ih =>
      obtain ⟨k, n⟩ := p
      by_cases hk : k = key
      · rw [mapFind, if_pos hk] at h
        cases h
      · rw [mapFind, if_neg hk] at h
        simp [mapStore, hk, ih h]

/-- Deleting a present key shrinks the registry by one entry. -/
theorem mapDelete_length_of_present (m : List (String × Node)) (key : String)
    (h : (mapFind m key).isSome = true) : m.length = (mapDelete m key).length + 1 := by
  induction m with
  | nil => simp [mapFind] at h
  | cons p rest ih =>
      obtain ⟨k, n⟩ := p
      by_cases hk : k = key
      · simp [mapDelete, hk]
      · rw [mapFind, if_neg hk] at h
        simp [mapDelete, hk, ih h]

/-- A whole (serialized) `AddNode` call preserves counter = registry size. -/
theorem addNode_inv (c : Cluster) (name dsn : String) (env : DBEnv)
    (h : c.nodeLen = (c.nodes.length : ℤ)) :
    (c.addNode name dsn env).1.nodeLen = ((c.addNode name dsn env).1.nodes.length : ℤ) := by
  by_cases he : c.nodeExists name
  · simpa [Cluster.addNode, he] using h
  · have hnone : mapFind c.nodes name = none := by
      rcases hm : mapFind c.nodes name with _ | v
      · rfl
      · rw [Cluster.nodeExists, hm] at he
        simp at he
    rcases ho : env.openErr dsn with _ | msg
    · rcases hp : env.pingErr dsn with _ | msg
      · simp only [Cluster.addNode, newNode, he, ho, hp, Bool.false_eq_true, if_false]
        rw [mapStore_length_of_absent c.nodes name _ hnone]
        push_cast
        omega
      · simpa [Cluster.addNode, newNode, he, ho, hp] using h
    · simpa [Cluster.addNode, newNode, he, ho] using h

/-- A whole (serialized) `RemoveNode` call preserves counter = registry size. -/
theorem removeNode_inv (c : Cluster) (name : String)
    (h : c.nodeLen = (c.nodes.length : ℤ)) :
    (c.removeNode name).nodeLen = ((c.removeNode name).nodes.length : ℤ) := by
  by_cases he : c.nodeExists name
  · simp only [Cluster.removeNode, he, if_true]
    have := mapDelete_length_of_present c.nodes name he
    omega
  · simpa [Cluster.removeNode, he] using h

/-- Serialized administrative runs preserve counter = registry size. -/
theorem runAdmin_inv (env : DBEnv) (ops : List AdminCall) :
    ∀ c : Cluster, c.nodeLen = (c.nodes.length : ℤ) →
      (runAdmin env c ops).nodeLen = ((runAdmin env c ops).nodes.length : ℤ) := by
  induction ops with
  | nil => intro c h; exact h
  | cons op rest ih =>
      intro c h
      cases op with
      | add name dsn => exact ih _ (addNode_inv c name dsn env h)
      | remove name => exact ih _ (removeNode_inv c name h)

/-- C6, counterexample. An interleaving of two concurrent `AddNode("a", ·)`
calls on a fresh cluster, following the lock structure of the Go code: both
`nodeExists` checks read the empty registry (both see the name absent),
then both commit. Both calls finish without error, yet the final —
reachable — state has `Len() = 2` while the registry holds a single entry:
the counter has drifted from the map, falsifying the claimed invariant for
interleaved executions. -/
theorem claim6_counterexample :
    Relation.ReflTransGen (AdminStep noDBErrors)
      (Cluster.new 1, [⟨.add "a" "d1", .pending⟩, ⟨.add "a" "d2", .pending⟩])
      (⟨[("a", ⟨"a", false, ⟨1, 1, 1, 0⟩⟩)], 1, 0, 0, 2, none⟩,
       [⟨.add "a" "d1", .done none⟩, ⟨.add "a" "d2", .done none⟩]) ∧
    (⟨[("a", ⟨"a", false, ⟨1, 1, 1, 0⟩⟩)], 1, 0, 0, 2, none⟩ : Cluster).len = 2 ∧
    ((⟨[("a", ⟨"a", false, ⟨1, 1, 1, 0⟩⟩)], 1, 0, 0, 2, none⟩ : Cluster).nodes.length = 1) := by
  refine ⟨?_, rfl, rfl⟩
  have h1 : AdminStep noDBErrors
      (Cluster.new 1, [⟨.add "a" "d1", .pending⟩, ⟨.add "a" "d2", .pending⟩])
      (Cluster.new 1, [⟨.add "a" "d1", .checked false⟩, ⟨.add "a" "d2", .pending⟩]) :=
    AdminStep.check _ _ 0 (.add "a" "d1") rfl
  have h2 : AdminStep noDBErrors
      (Cluster.new 1, [⟨.add "a" "d1", .checked false⟩, ⟨.add "a" "d2", .pending⟩])
      (Cluster.new 1, [⟨.add "a" "d1", .checked false⟩, ⟨.add "a" "d2", .checked false⟩]) :=
    AdminStep.check _ _ 1 (.add "a" "d2") rfl
  have h3 : AdminStep noDBErrors
      (Cluster.new 1, [⟨.add "a" "d1", .checked false⟩, ⟨.add "a" "d2", .checked false⟩])
      (⟨[("a", ⟨"a", false, ⟨1, 1, 1, 0⟩⟩)], 1, 0, 0, 1, none⟩,
       [⟨.add "a" "d1", .done none⟩, ⟨.add "a" "d2", .checked false⟩]) :=
    AdminStep.addOk _ _ 0 "a" "d1" ⟨"a", false, ⟨1, 1, 1, 0⟩⟩ rfl rfl
  have h4 : AdminStep noDBErrors
      (⟨[("a", ⟨"a", false, ⟨1, 1, 1, 0⟩⟩)], 1, 0, 0, 1, none⟩,
       [⟨.add "a" "d1", .done none⟩, ⟨.add "a" "d2", .checked false⟩])
      (⟨[("a", ⟨"a", false, ⟨1, 1, 1, 0⟩⟩)], 1, 0, 0, 2, none⟩,
       [⟨.add "a" "d1", .done none⟩, ⟨.add "a" "d2", .done none⟩]) :=
    AdminStep.addOk _ _ 1 "a" "d2" ⟨"a", false, ⟨1, 1, 1, 0⟩⟩ rfl rfl
  exact Relation.ReflTransGen.head h1 (Relation.ReflTransGen.head h2
    (Relation.ReflTransGen.head h3 (Relation.ReflTransGen.single h4)))

/-- C6, amended. Under serialized (whole-call-atomic) sequences of
`AddNode` and `RemoveNode` — the setting in which the registry's
mutations actually occur one at a time — `Len()` always equals the number
of entries reachable by iterating the registry, starting from any
`NewCluster(R)`. (Under concurrent interleavings the check-then-act race
exhibited in the counterexample breaks this.) -/
theorem claim6_serialized_len_eq_size (R : ℤ) (env : DBEnv) (ops : List AdminCall) :
    (runAdmin env (Cluster.new R) ops).len
      = ((runAdmin env (Cluster.new R) ops).nodes.length : ℤ) :=
  runAdmin_inv env ops (Cluster.new R) rfl

/-! ## Rate conformance -/

/-- Spacing of admissions for a burst-1 gate of positive rate `R`: every
admitted time is at least the refill deadline `last + (1 - tokens)/R` of
the starting state, and consecutive admitted times are at least `1/R`
apart — after a token is consumed, no request is admitted until the full
`1/R` refill interval has elapsed. -/
theorem allowRun_spacing {R : ℚ} (hR : 0 < R) :
    ∀ (ts : List ℚ) (l : Limiter), l.limit = R → l.burst = 1 → l.tokens ≤ 1 →
      ts.Pairwise (· ≤ ·) → (∀ u ∈ ts, l.last ≤ u) →
      (∀ a ∈ (allowRun l ts).1, l.last + (1 - l.tokens) / R ≤ a) ∧
      List.Chain' (fun a b => a + 1 / R ≤ b) (allowRun l ts).1 := by
  intro ts
  induction ts with
  | nil =>
      intro l _ _ _ _ _
      constructor
      · intro a ha
        simp [allowRun] at ha
      · simp [allowRun]
  | cons t ts ih =>
      intro l hlim hburst htok hpair hlast
      have hlimne : l.limit ≠ 0 := by rw [hlim]; exact ne_of_gt hR
      have hlt : l.last ≤ t := hlast t (List.mem_cons_self ..)
      have hmin : min t l.last = l.last := min_eq_right hlt
      have hpair' : ts.Pairwise (· ≤ ·) := (List.pairwise_cons.mp hpair).2
      have hhead : ∀ u ∈ ts, t ≤ u := (List.pairwise_cons.mp hpair).1
      have hb1 : 1 ≤ l.burst := le_of_eq hburst.symm
      have h1R : (0 : ℚ) < 1 / R := by positivity
      by_cases hok : 1 ≤ l.advTokens t
      · have hA := allowAt_admit hlimne ⟨hb1, hok⟩
        have hadv_le : l.advTokens t ≤ 1 := by
          unfold Limiter.advTokens
          rw [hburst]
          exact min_le_left _ _
        have hadv : l.advTokens t = 1 := le_antisymm hadv_le hok
        have hineq : 1 ≤ l.tokens + (t - l.last) * R := by
          have h' : l.advTokens t ≤ l.tokens + (t - min t l.last) * l.limit := by
            unfold Limiter.advTokens
            exact min_le_right _ _
          rw [hmin, hlim, hadv] at h'
          linarith
        have hbound : l.last + (1 - l.tokens) / R ≤ t := by
          have h2 : (1 - l.tokens) / R ≤ t - l.last := by
            rw [div_le_iff₀ hR]
            linarith
          linarith
        have ihres := ih { l with tokens := l.advTokens t - 1, last := t } hlim hburst
          (by simp only [hadv]; norm_num) hpair' (fun u hu => hhead u hu)
        have hB2 : ∀ a ∈ (allowRun { l with tokens := l.advTokens t - 1, last := t } ts).1,
            t + 1 / R ≤ a := by
          intro a ha
          have h3 := ihres.1 a ha
          simp only [hadv] at h3
          norm_num at h3
          rw [one_div]
          exact h3
        simp only [allowRun]
        rw [hA]
        constructor
        · intro a ha
          simp only [Bool.true_eq, if_pos rfl] at ha
          rcases List.mem_cons.mp ha with rfl | ha'
          · exact hbound
          · have := hB2 a ha'
            linarith
        · simp only [Bool.true_eq, if_pos rfl]
          refine List.chain'_cons'.mpr ⟨?_, ihres.2⟩
          intro y hy
          exact hB2 y (List.mem_of_mem_head? hy)
      · have hA := allowAt_deny hlimne (fun hc => hok hc.2)
        have ihres := ih l hlim hburst htok hpair'
          (fun u hu => hlast u (List.mem_cons_of_mem _ hu))
        constructor
        · intro a ha
          apply ihres.1
          simp only [allowRun] at ha
          rw [hA] at ha
          simpa using ha
        · simp only [allowRun]
          rw [hA]
          simpa using ihres.2

/-- Along a chain with gaps of at least `δ`, the last element is at least
the head plus `length · δ`. -/
theorem chain_gap_getLast {δ : ℚ} :
    ∀ (L : List ℚ) (a : ℚ), (a :: L).Chain' (fun x y => x + δ ≤ y) →
      a + (L.length : ℚ) * δ ≤ (a :: L).getLast (List.cons_ne_nil a L) := by
  intro L
  induction L with
  | nil =>
      intro a _
      simp
  | cons b L ih =>
      intro a h
      rw [List.chain'_cons] at h
      have hab : a + δ ≤ b := h.1
      have hbl := ih b h.2
      rw [List.getLast_cons (List.cons_ne_nil b L), List.length_cons]
      push_cast
      linarith

/-- C7. For the gate `setLimit(r)` builds (rate `r > 0`, burst 1), over any
run at nondecreasing, nonnegative query times: consecutive admissions are
at least `1/r` apart (no admission until the refill interval has elapsed),
and hence any half-open sliding window `[s, s + T)` of length `T ≥ 0`
contains at most `⌈r · T⌉` admitted requests — which bounds the successful
`acquire()` deliveries of the node, since every delivery is preceded by one
admission of its gate. -/
theorem claim7_rate_window_bound (n0 : Node) (r : ℤ) (hr : 0 < r) (s T : ℚ) (hT : 0 ≤ T)
    (ts : List ℚ) (hsort : ts.Pairwise (· ≤ ·)) (hnn : ∀ u ∈ ts, 0 ≤ u) :
    List.Chain' (fun a b => a + 1 / (r : ℚ) ≤ b) (allowRun ((n0.setLimit r)).limiter ts).1 ∧
    (((allowRun ((n0.setLimit r)).limiter ts).1.filter
        fun a => decide (s ≤ a ∧ a < s + T)).length : ℤ) ≤ ⌈(r : ℚ) * T⌉ := by
  have hR : (0 : ℚ) < (r : ℚ) := by exact_mod_cast hr
  have hspace := allowRun_spacing hR ts (Limiter.new (r : ℚ) 1) rfl rfl
    (by norm_num [Limiter.new]) hsort
    (by intro u hu; simpa [Limiter.new] using hnn u hu)
  have hl0 : (n0.setLimit r).limiter = Limiter.new (r : ℚ) 1 := rfl
  rw [hl0]
  refine ⟨hspace.2, ?_⟩
  have hchainA : (allowRun (Limiter.new (r : ℚ) 1) ts).1.Chain'
      (fun a b => a + 1 / (r : ℚ) ≤ b) := hspace.2
  haveI : IsTrans ℚ (fun a b => a + 1 / (r : ℚ) ≤ b) := by
    constructor
    intro a b c hab hbc
    dsimp only at hab hbc ⊢
    have h1R : (0 : ℚ) < 1 / (r : ℚ) := by positivity
    linarith
  have hsub : ((allowRun (Limiter.new (r : ℚ) 1) ts).1.filter
      fun a => decide (s ≤ a ∧ a < s + T)).Sublist (allowRun (Limiter.new (r : ℚ) 1) ts).1 :=
    List.filter_sublist _
  have hchainF := hchainA.sublist hsub
  have hmemF : ∀ a ∈ (allowRun (Limiter.new (r : ℚ) 1) ts).1.filter
      (fun a => decide (s ≤ a ∧ a < s + T)), s ≤ a ∧ a < s + T := by
    intro a ha
    exact of_decide_eq_true (List.mem_filter.mp ha).2
  rcases hFc : (allowRun (Limiter.new (r : ℚ) 1) ts).1.filter
      (fun a => decide (s ≤ a ∧ a < s + T)) with _ | ⟨a, L⟩
  · simp only [List.length_nil, Nat.cast_zero]
    exact Int.ceil_nonneg (mul_nonneg (le_of_lt hR) hT)
  · rw [hFc] at hchainF hmemF
    have hga := chain_gap_getLast L a hchainF
    have hlastmem := List.getLast_mem (List.cons_ne_nil a L)
    obtain ⟨hs1, _⟩ := hmemF a (List.mem_cons_self ..)
    obtain ⟨_, hl2⟩ := hmemF _ hlastmem
    have hlen : (L.length : ℚ) * (1 / (r : ℚ)) < T := by
      have : a + (L.length : ℚ) * (1 / (r : ℚ)) < s + T := lt_of_le_of_lt hga hl2
      linarith
    have hlen2 : (L.length : ℚ) < T * (r : ℚ) := by
      have h' := mul_lt_mul_of_pos_right hlen hR
      rwa [mul_assoc, one_div_mul_cancel (ne_of_gt hR), mul_one] at h'
    have hlen3 : (L.length : ℤ) < ⌈(r : ℚ) * T⌉ := by
      rw [Int.lt_ceil]
      push_cast
      rw [mul_comm]
      linarith
    simp only [List.length_cons]
    push_cast
    omega

/-- C7, witness: rate 1, three queries at 0, ½ and 1 second; the two
admissions (at 0 and 1) respect the 1-second refill and the window
`[0, 2)` holds 2 ≤ ⌈1·2⌉ of them. -/
theorem claim7_witness :
    ((0 : ℤ) < 1) ∧ ((0 : ℚ) ≤ 2) ∧
    (List.Pairwise (· ≤ ·) [(0 : ℚ), 1/2, 1]) ∧ (∀ u ∈ [(0 : ℚ), 1/2, 1], 0 ≤ u) ∧
    (List.Chain' (fun a b => a + 1 / ((1 : ℤ) : ℚ) ≤ b)
        (allowRun ((Node.setLimit ⟨"w", false, Limiter.new 1 1⟩ 1)).limiter [0, 1/2, 1]).1 ∧
     (((allowRun ((Node.setLimit ⟨"w", false, Limiter.new 1 1⟩ 1)).limiter [0, 1/2, 1]).1.filter
          fun a => decide ((0 : ℚ) ≤ a ∧ a < 0 + 2)).length : ℤ) ≤ ⌈((1 : ℤ) : ℚ) * 2⌉) :=
  ⟨by decide, by decide, by decide, by decide,
    claim7_rate_window_bound ⟨"w", false, Limiter.new 1 1⟩ 1 (by decide) 0 2 (by decide)
      [0, 1/2, 1] (by decide) (by decide)⟩

end PgBalancer
